import Mathlib

/-!
Verification of `src/kudu/util/debug-util.cc` (kudu): signal-based cross-thread
stack dumping, bounded hex encoding of stack traces, and best-effort
symbolization.  The C++ is embedded shallowly: buffer-writing code is modelled
as an explicit ordered list of write events `(position, byte)`, the global
`SignalCommunication` structure as a `CommState` record, the signal handler and
the orchestrator `DumpThreadStack` as pure state transformers parametrised by
an environment (signal delivery outcome, handler response, platform stack
walker and symbol resolver).  Fatal `CHECK` failures are modelled as `none`.
-/

namespace DebugUtil

/-- Modelled from the spec: `kHexEntryLength` is declared in `debug-util.h`,
which is not under `src/`.  Each frame is encoded by `FastHex64ToBuffer` as a
fixed-width 16-digit hexadecimal token (64 bits, two digits per byte). -/
def kHexEntryLength : Nat := 16

/-- Modelled from the spec: `kMaxFrames` is declared in `debug-util.h`, which
is not under `src/`; the entity holds a fixed maximum number of frames. -/
def kMaxFrames : Nat := 16

/-- `2 + 2 * sizeof(void*)` with 8-byte pointers (debug-util.cc line 39). -/
def kPrintfPointerFieldWidth : Nat := 2 + 2 * 8

/-- Lowercase hexadecimal digit character for a value below 16. -/
def hexDigit (n : Nat) : Char :=
  if n < 10 then Char.ofNat (48 + n) else Char.ofNat (87 + n)

/-- The `j`-th character (0 = most significant) of the fixed-width 16-digit
hex rendering of `v` (mod 2^64). -/
def hexTokenChar (v j : Nat) : Char :=
  hexDigit (v / 16 ^ (15 - j) % 16)

/-- Modelled from the spec: `FastHex64ToBuffer` (gutil `strings/numbers`, not
under `src/`) writes the fixed-width 16-digit lowercase hex rendering of `v`
into the buffer starting at offset `dst`.  Modelled as the ordered list of the
16 write events. -/
def tokenWrites (dst v : Nat) : List (Nat × Char) :=
  (List.range kHexEntryLength).map (fun j => (dst + j, hexTokenChar v j))

/-- Loop of `StackTrace::StringifyToHex` (debug-util.cc lines 215-221): write
frames while `dst < limit`, a space before every frame but the first.  Returns
the ordered write events and the final value of `dst`.  `limit` is the pointer
`buf + size - kHexEntryLength - 2` as an offset from `buf`, an integer because
the C pointer arithmetic can go below `buf`. -/
def stringifyAux (frames : List Nat) (i dst : Nat) (limit : Int) :
    List (Nat × Char) × Nat :=
  match frames with
  | [] => ([], dst)
  | pc :: rest =>
    if (dst : Int) < limit then
      let sep : List (Nat × Char) := if i ≠ 0 then [(dst, ' ')] else []
      let dst1 : Nat := if i ≠ 0 then dst + 1 else dst
      let (ws, dfin) := stringifyAux rest (i + 1) (dst1 + kHexEntryLength) limit
      (sep ++ tokenWrites dst1 pc ++ ws, dfin)
    else ([], dst)

/-- `StackTrace::StringifyToHex(buf, size)` (debug-util.cc lines 208-223) as
the ordered list of write events into `buf`: the bounded frame loop followed by
the unconditional nul terminator at the final `dst`. -/
def stringifyToHexWrites (frames : List Nat) (size : Nat) : List (Nat × Char) :=
  let limit : Int := (size : Int) - (kHexEntryLength : Int) - 2
  let (ws, dfin) := stringifyAux frames 0 0 limit
  ws ++ [(dfin, Char.ofNat 0)]

/-- Apply a list of write events to a buffer (a list of chars); writes at
positions outside the buffer are dropped by `List.set`. -/
def applyWrites (buf : List Char) (ws : List (Nat × Char)) : List Char :=
  ws.foldl (fun b w => b.set w.1 w.2) buf

/-- `std::string(buf)` on a char buffer: the characters before the first nul. -/
def readCString (buf : List Char) : String :=
  String.mk (buf.takeWhile (fun c => c ≠ Char.ofNat 0))

/-- `StringifyToHex` into a buffer with initial contents `init` (whose length
is the capacity), followed by reading the result as a C string. -/
def stringifyToHexInto (init : List Char) (frames : List Nat) : String :=
  readCString (applyWrites init (stringifyToHexWrites frames init.length))

/-- The size of the stack buffer in `StackTrace::ToHexString`
(debug-util.cc line 228). -/
def toHexBufSize : Nat := kMaxFrames * (kHexEntryLength + 1) + 1

/-- `StackTrace::ToHexString` (debug-util.cc lines 225-231): a stack buffer of
`toHexBufSize` chars with arbitrary (uninitialised) contents `init`, filled by
`StringifyToHex(buf, arraysize(buf))` and read back as a C string. -/
def ToHexString (init : List Char) (frames : List Nat) : String :=
  readCString (applyWrites init (stringifyToHexWrites frames toHexBufSize))

/-- Full (unbounded) write events for a list of frames, starting at frame
index `i` and offset `dst`: the writes the `StringifyToHex` loop produces when
the limit never cuts it off.  Used to state that the bounded loop encodes an
exact prefix of the frames, never a partial token. -/
def hexTokensWrites (frames : List Nat) (i dst : Nat) : List (Nat × Char) :=
  match frames with
  | [] => []
  | pc :: rest =>
    let sep : List (Nat × Char) := if i ≠ 0 then [(dst, ' ')] else []
    let dst1 : Nat := if i ≠ 0 then dst + 1 else dst
    sep ++ tokenWrites dst1 pc ++ hexTokensWrites rest (i + 1) (dst1 + kHexEntryLength)

/-- `reinterpret_cast<char*>(pc) - 1` (debug-util.cc line 265): one-byte
pointer decrement, wrapping modulo 2^64 as machine pointer arithmetic does. -/
def decPtr (pc : Nat) : Nat :=
  (pc + (2 ^ 64 - 1)) % 2 ^ 64

/-- Modelled from the spec: `StringAppendF(&ret, "    @ %*p  %s\n", ...)` goes
through gutil/libc formatting, not under `src/`; `%*p` renders the pointer
right-aligned in `kPrintfPointerFieldWidth` columns as `0x`-prefixed lowercase
hex. -/
def formatPointer (pc : Nat) : String :=
  let s : String := "0x" ++ String.mk (Nat.toDigits 16 pc)
  String.mk (List.replicate (kPrintfPointerFieldWidth - s.length) ' ') ++ s

/-- Body of the `StackTrace::Symbolize` loop (debug-util.cc lines 236-268) for
one frame: resolve `pc - 1` through the platform resolver (`google::Symbolize`,
an external collaborator, passed in as `resolver`), fall back to `"(unknown)"`,
and format one output line. -/
def symbolizeFrame (resolver : Nat → Option String) (pc : Nat) : String :=
  let symbol : String :=
    match resolver (decPtr pc) with
    | some s => s
    | none => "(unknown)"
  "    @ " ++ formatPointer pc ++ "  " ++ symbol ++ "\n"

/-- `StackTrace::Symbolize` (debug-util.cc lines 234-271): appends one
formatted line per captured frame to the accumulated string. -/
def Symbolize (resolver : Nat → Option String) (frames : List Nat) : String :=
  frames.foldl (fun ret pc => ret ++ symbolizeFrame resolver pc) ""

/-- The global `SignalCommunication g_comm` (debug-util.cc lines 47-68): the
captured stack, the current target tid, and the result flag.  The spin-lock
word is not part of the sequential state; lock acquire/release order is
modelled by the handler's event trace. -/
structure CommState where
  stack : List Nat
  target_tid : Nat
  result_ready : Bool
deriving DecidableEq, Repr

/-- Observable events of one signal-handler execution, in program order:
acquiring and releasing `SignalCommunication::Lock` (constructor at function
entry, destructor at scope exit), the stack collection, and the release-store
of `result_ready`. -/
inductive HEvent where
  | lockAcquire
  | collect
  | storeReady
  | lockRelease
deriving DecidableEq, Repr

/-- `HandleStackTraceSignal` (debug-util.cc lines 85-100) running on a thread
with id `my_tid`, where `collected` is what `stack.Collect(2)` would capture
(the platform stack walker is an external collaborator).  Returns the new
shared state and the ordered event trace.  The RAII lock guard acquires at
entry and releases when the scope exits — after the early return on a tid
mismatch, and after the `Release_Store` of `result_ready` otherwise. -/
def HandleStackTraceSignal (s : CommState) (my_tid : Nat) (collected : List Nat) :
    CommState × List HEvent :=
  if s.target_tid ≠ my_tid then
    (s, [HEvent.lockAcquire, HEvent.lockRelease])
  else
    ({ s with stack := collected, result_ready := true },
     [HEvent.lockAcquire, HEvent.collect, HEvent.storeReady, HEvent.lockRelease])

/-- Environment of one `DumpThreadStack` call: whether the `tgkill` syscall
succeeds, whether the signalled thread runs the handler before the orchestrator
stops polling, what the handler's `Collect` would capture, and the platform
symbol resolver. -/
structure DumpEnv where
  deliverOk : Bool
  handlerRuns : Bool
  collected : List Nat
  resolver : Nat → Option String

/-- State after the poll loop of `DumpThreadStack` (debug-util.cc lines
143-148): the target has been set to `tid`; if the handler ran before the
orchestrator stopped polling it has transformed the shared state. -/
def pollState (s : CommState) (tid : Nat) (env : DumpEnv) : CommState :=
  let s1 : CommState := { s with target_tid := tid }
  if env.handlerRuns then (HandleStackTraceSignal s1 tid env.collected).1 else s1

/-- `DumpThreadStack(tid)` (debug-util.cc lines 104-164) as a state
transformer.  `none` models a fatal `CHECK` failure (process abort); otherwise
the result is the returned string and the shared state at the time the
single-flight spinlock is released. -/
def DumpThreadStack (s : CommState) (tid : Nat) (env : DumpEnv) :
    Option (String × CommState) :=
  if s.target_tid ≠ 0 then
    none
  else if ¬ env.deliverOk then
    some ("(unable to deliver signal: process may have exited)",
      { s with target_tid := 0 })
  else
    let s2 : CommState := pollState s tid env
    if s2.target_tid ≠ tid then
      none
    else
      let ret : String :=
        if ¬ s2.result_ready then
          "(thread did not respond: maybe it is blocking signals)"
        else
          Symbolize env.resolver s2.stack
      some (ret, { s2 with target_tid := 0, result_ready := false })

/-- A sequence of serialized `DumpThreadStack` calls (the single-flight mutex
admits one at a time); `none` as soon as any call hits a fatal `CHECK`. -/
def runDumps (s : CommState) (reqs : List (Nat × DumpEnv)) : Option CommState :=
  match reqs with
  | [] => some s
  | (tid, env) :: rest =>
    match DumpThreadStack s tid env with
    | none => none
    | some (_, s1) => runDumps s1 rest

/-! ### Protocol lemmas -/

theorem pollState_target_tid (s : CommState) (tid : Nat) (env : DumpEnv) :
    (pollState s tid env).target_tid = tid := by
  unfold pollState HandleStackTraceSignal
  by_cases h : env.handlerRuns <;> simp [h]

theorem dump_step (s : CommState) (tid : Nat) (env : DumpEnv)
    (h0 : s.target_tid = 0) :
    ∃ ret s1, DumpThreadStack s tid env = some (ret, s1) ∧
      s1.target_tid = 0 ∧ (s.result_ready = false → s1.result_ready = false) := by
  unfold DumpThreadStack
  by_cases hd : env.deliverOk
  · have ht := pollState_target_tid s tid env
    refine ⟨(if ¬(pollState s tid env).result_ready then
        "(thread did not respond: maybe it is blocking signals)"
      else Symbolize env.resolver (pollState s tid env).stack),
      { pollState s tid env with target_tid := 0, result_ready := false },
      ?_, rfl, fun _ => rfl⟩
    simp [h0, hd, ht]
  · refine ⟨"(unable to deliver signal: process may have exited)",
      { s with target_tid := 0 }, ?_, rfl, fun h => h⟩
    simp [h0, hd]

theorem runDumps_isSome (reqs : List (Nat × DumpEnv)) :
    ∀ s : CommState, s.target_tid = 0 → (runDumps s reqs).isSome = true := by
  induction reqs with
  | nil => intro s _; rfl
  | cons req rest ih =>
    intro s h0
    obtain ⟨ret, s1, heq, h1, _⟩ := dump_step s req.1 req.2 h0
    unfold runDumps
    rw [heq]
    exact ih s1 h1

theorem runDumps_inv (reqs : List (Nat × DumpEnv)) :
    ∀ s : CommState, s.target_tid = 0 → s.result_ready = false →
      ∀ s1, runDumps s reqs = some s1 →
        s1.target_tid = 0 ∧ s1.result_ready = false := by
  induction reqs with
  | nil =>
    intro s h0 hr s1 heq
    cases heq
    exact ⟨h0, hr⟩
  | cons req rest ih =>
    intro s h0 hr s1 heq
    obtain ⟨ret, s2, hstep, h1, h2⟩ := dump_step s req.1 req.2 h0
    unfold runDumps at heq
    rw [hstep] at heq
    exact ih s2 h1 (h2 hr) s1 heq

/-! ### Claims about the signal handler (C3, C5) -/

/-- C3, counterexample: on a matching target the handler's release-store of
`result_ready` happens strictly before the signal-safe lock is released (the
RAII guard's destructor runs at scope exit, after the store at line 99), not
after it as claimed. -/
theorem c3_counterexample :
    (HandleStackTraceSignal ⟨[], 5, false⟩ 5 [12, 34]).2 =
      [HEvent.lockAcquire, HEvent.collect, HEvent.storeReady, HEvent.lockRelease] ∧
    ¬ ((HandleStackTraceSignal ⟨[], 5, false⟩ 5 [12, 34]).2.indexOf HEvent.lockRelease <
       (HandleStackTraceSignal ⟨[], 5, false⟩ 5 [12, 34]).2.indexOf HEvent.storeReady) := by
  decide

/-- C3, amended: on a matching target the handler acquires the lock, collects
the stack, performs the release-store of `result_ready`, and only then (at
scope exit) releases the signal-safe lock: the `captured_stack` writes are
ordered before the store of `result_ready`, and the store is ordered before
the lock release — inside the lock, not outside it. -/
theorem c3_store_before_unlock (s : CommState) (my_tid : Nat) (collected : List Nat)
    (h : s.target_tid = my_tid) :
    (HandleStackTraceSignal s my_tid collected).2 =
      [HEvent.lockAcquire, HEvent.collect, HEvent.storeReady, HEvent.lockRelease] ∧
    (HandleStackTraceSignal s my_tid collected).2.indexOf HEvent.collect <
      (HandleStackTraceSignal s my_tid collected).2.indexOf HEvent.storeReady ∧
    (HandleStackTraceSignal s my_tid collected).2.indexOf HEvent.storeReady <
      (HandleStackTraceSignal s my_tid collected).2.indexOf HEvent.lockRelease ∧
    (HandleStackTraceSignal s my_tid collected).1 =
      { s with stack := collected, result_ready := true } := by
  have heq : HandleStackTraceSignal s my_tid collected =
      ({ s with stack := collected, result_ready := true },
       [HEvent.lockAcquire, HEvent.collect, HEvent.storeReady, HEvent.lockRelease]) := by
    unfold HandleStackTraceSignal
    simp [h]
  rw [heq]
  refine ⟨rfl, ?_, ?_, rfl⟩
  · show List.indexOf HEvent.collect
        [HEvent.lockAcquire, HEvent.collect, HEvent.storeReady, HEvent.lockRelease] <
      List.indexOf HEvent.storeReady
        [HEvent.lockAcquire, HEvent.collect, HEvent.storeReady, HEvent.lockRelease]
    decide
  · show List.indexOf HEvent.storeReady
        [HEvent.lockAcquire, HEvent.collect, HEvent.storeReady, HEvent.lockRelease] <
      List.indexOf HEvent.lockRelease
        [HEvent.lockAcquire, HEvent.collect, HEvent.storeReady, HEvent.lockRelease]
    decide

/-- C3 witness at a concrete matching invocation. -/
theorem c3_store_before_unlock_witness :
    (HandleStackTraceSignal ⟨[], 9, false⟩ 9 [1]).2 =
      [HEvent.lockAcquire, HEvent.collect, HEvent.storeReady, HEvent.lockRelease] ∧
    (HandleStackTraceSignal ⟨[], 9, false⟩ 9 [1]).2.indexOf HEvent.collect <
      (HandleStackTraceSignal ⟨[], 9, false⟩ 9 [1]).2.indexOf HEvent.storeReady ∧
    (HandleStackTraceSignal ⟨[], 9, false⟩ 9 [1]).2.indexOf HEvent.storeReady <
      (HandleStackTraceSignal ⟨[], 9, false⟩ 9 [1]).2.indexOf HEvent.lockRelease ∧
    (HandleStackTraceSignal ⟨[], 9, false⟩ 9 [1]).1 =
      { stack := [1], target_tid := 9, result_ready := true } :=
  c3_store_before_unlock ⟨[], 9, false⟩ 9 [1] rfl

/-- C5: a signal-handler invocation on a thread whose id differs from the
current `target_tid` returns right after the comparison: the shared state is
unchanged, no stack is collected and `result_ready` is not stored. -/
theorem c5_mismatch_ignored (s : CommState) (my_tid : Nat) (collected : List Nat)
    (h : s.target_tid ≠ my_tid) :
    HandleStackTraceSignal s my_tid collected =
      (s, [HEvent.lockAcquire, HEvent.lockRelease]) ∧
    HEvent.collect ∉ (HandleStackTraceSignal s my_tid collected).2 ∧
    HEvent.storeReady ∉ (HandleStackTraceSignal s my_tid collected).2 := by
  have heq : HandleStackTraceSignal s my_tid collected =
      (s, [HEvent.lockAcquire, HEvent.lockRelease]) := by
    unfold HandleStackTraceSignal
    simp [h]
  refine ⟨heq, ?_, ?_⟩ <;> rw [heq]
  · show HEvent.collect ∉ [HEvent.lockAcquire, HEvent.lockRelease]
    decide
  · show HEvent.storeReady ∉ [HEvent.lockAcquire, HEvent.lockRelease]
    decide

/-- C5 witness at a concrete mismatched invocation. -/
theorem c5_mismatch_ignored_witness :
    HandleStackTraceSignal ⟨[], 3, true⟩ 4 [7, 8] =
      (⟨[], 3, true⟩, [HEvent.lockAcquire, HEvent.lockRelease]) ∧
    HEvent.collect ∉ (HandleStackTraceSignal ⟨[], 3, true⟩ 4 [7, 8]).2 ∧
    HEvent.storeReady ∉ (HandleStackTraceSignal ⟨[], 3, true⟩ 4 [7, 8]).2 :=
  c5_mismatch_ignored ⟨[], 3, true⟩ 4 [7, 8] (by decide)

/-! ### Claims about the dump orchestrator (C1, C4, C6, C8) -/

/-- C4, counterexample: on delivery failure the returned text is the
parenthesized string `"(unable to deliver signal: process may have exited)"`
(debug-util.cc line 134), not exactly the claimed unparenthesized message. -/
theorem c4_counterexample :
    DumpThreadStack ⟨[], 0, false⟩ 7 ⟨false, false, [], fun _ => none⟩ =
      some ("(unable to deliver signal: process may have exited)", ⟨[], 0, false⟩) ∧
    "(unable to deliver signal: process may have exited)" ≠
      "unable to deliver signal: process may have exited" := by
  exact ⟨by decide, by decide⟩

/-- C4, amended: whenever sending the coordination signal fails, the function
resets `target_tid` to 0 (leaving the rest of the shared state untouched) and
returns the sentinel `"(unable to deliver signal: process may have exited)"`
(the sentinel text is surrounded by parentheses in the code). -/
theorem c4_delivery_failure (s : CommState) (tid : Nat) (env : DumpEnv)
    (h0 : s.target_tid = 0) (hd : env.deliverOk = false) :
    DumpThreadStack s tid env =
      some ("(unable to deliver signal: process may have exited)",
            { s with target_tid := 0 }) := by
  unfold DumpThreadStack
  simp [h0, hd]

/-- C4 witness at a concrete failing delivery. -/
theorem c4_delivery_failure_witness :
    DumpThreadStack ⟨[2], 0, false⟩ 5 ⟨false, true, [], fun _ => none⟩ =
      some ("(unable to deliver signal: process may have exited)",
            ⟨[2], 0, false⟩) :=
  c4_delivery_failure ⟨[2], 0, false⟩ 5 ⟨false, true, [], fun _ => none⟩ rfl rfl

/-- C1, counterexample: on a timeout the returned text is the parenthesized
string `"(thread did not respond: maybe it is blocking signals)"`
(debug-util.cc line 155), not exactly the claimed unparenthesized sentinel. -/
theorem c1_counterexample :
    DumpThreadStack ⟨[], 0, false⟩ 7 ⟨true, false, [], fun _ => none⟩ =
      some ("(thread did not respond: maybe it is blocking signals)", ⟨[], 0, false⟩) ∧
    "(thread did not respond: maybe it is blocking signals)" ≠
      "thread did not respond: maybe it is blocking signals" := by
  exact ⟨by decide, by decide⟩

/-- C1, amended: for every call in which signal delivery succeeds (starting
from an idle session), the operation returns text — never a fatal path: if
`result_ready` is still false after the polling loop it returns the sentinel
`"(thread did not respond: maybe it is blocking signals)"` (parenthesized in
the code), and otherwise the symbolized rendering of the captured stack. -/
theorem c1_total_result (s : CommState) (tid : Nat) (env : DumpEnv)
    (h0 : s.target_tid = 0) (hd : env.deliverOk = true) :
    ∃ ret s1, DumpThreadStack s tid env = some (ret, s1) ∧
      ((pollState s tid env).result_ready = false →
        ret = "(thread did not respond: maybe it is blocking signals)") ∧
      ((pollState s tid env).result_ready = true →
        ret = Symbolize env.resolver (pollState s tid env).stack) := by
  have ht := pollState_target_tid s tid env
  by_cases hr : (pollState s tid env).result_ready = true
  · refine ⟨Symbolize env.resolver (pollState s tid env).stack,
      { pollState s tid env with target_tid := 0, result_ready := false },
      ?_, ?_, fun _ => rfl⟩
    · unfold DumpThreadStack
      simp [h0, hd, ht, hr]
    · intro hc
      rw [hc] at hr
      exact absurd hr (by decide)
  · have hrf : (pollState s tid env).result_ready = false := by
      simpa using hr
    refine ⟨"(thread did not respond: maybe it is blocking signals)",
      { pollState s tid env with target_tid := 0, result_ready := false },
      ?_, fun _ => rfl, ?_⟩
    · unfold DumpThreadStack
      simp [h0, hd, ht, hrf]
    · intro hc
      rw [hc] at hrf
      exact absurd hrf (by decide)

/-- C1 witness at a concrete successful delivery with a responding target. -/
theorem c1_total_result_witness :
    ∃ ret s1, DumpThreadStack ⟨[], 0, false⟩ 4 ⟨true, true, [258], fun _ => some "f"⟩ =
        some (ret, s1) ∧
      ((pollState ⟨[], 0, false⟩ 4 ⟨true, true, [258], fun _ => some "f"⟩).result_ready = false →
        ret = "(thread did not respond: maybe it is blocking signals)") ∧
      ((pollState ⟨[], 0, false⟩ 4 ⟨true, true, [258], fun _ => some "f"⟩).result_ready = true →
        ret = Symbolize (fun _ => some "f")
          (pollState ⟨[], 0, false⟩ 4 ⟨true, true, [258], fun _ => some "f"⟩).stack) :=
  c1_total_result ⟨[], 0, false⟩ 4 ⟨true, true, [258], fun _ => some "f"⟩ rfl rfl

/-- C6: every `DumpThreadStack` call starting from an idle session (no target
set, result flag clear — the state every real session starts from) exits, on
every path, with `target_tid = 0` and `result_ready = false` before the
single-flight mutex is released; consequently every serialized run of calls
from the initial state keeps the shared session state clean between calls. -/
theorem c6_session_reset :
    (∀ s tid env, s.target_tid = 0 → s.result_ready = false →
      ∃ ret s1, DumpThreadStack s tid env = some (ret, s1) ∧
        s1.target_tid = 0 ∧ s1.result_ready = false) ∧
    (∀ reqs s1, runDumps ⟨[], 0, false⟩ reqs = some s1 →
      s1.target_tid = 0 ∧ s1.result_ready = false) := by
  constructor
  · intro s tid env h0 hr
    obtain ⟨ret, s1, heq, h1, h2⟩ := dump_step s tid env h0
    exact ⟨ret, s1, heq, h1, h2 hr⟩
  · intro reqs s1 h
    exact runDumps_inv reqs ⟨[], 0, false⟩ rfl rfl s1 h

/-- C6 witness at a concrete call and a concrete serialized run. -/
theorem c6_session_reset_witness :
    (∃ ret s1, DumpThreadStack ⟨[1], 0, false⟩ 6 ⟨true, true, [2], fun _ => none⟩ =
        some (ret, s1) ∧ s1.target_tid = 0 ∧ s1.result_ready = false) ∧
    ((⟨[2], 0, false⟩ : CommState).target_tid = 0 ∧
     (⟨[2], 0, false⟩ : CommState).result_ready = false) :=
  ⟨c6_session_reset.1 ⟨[1], 0, false⟩ 6 ⟨true, true, [2], fun _ => none⟩ rfl rfl,
   c6_session_reset.2 [(6, ⟨true, true, [2], fun _ => none⟩)] ⟨[2], 0, false⟩ rfl⟩

/-- C8: starting a session while `target_tid ≠ 0` hits the fatal
`CHECK_EQ(0, g_comm.target_tid)` (modelled as `none`, a process abort); and in
every serialized run of dump calls from the initial state the fatal branch is
unreachable — every call returns. -/
theorem c8_active_session_check :
    (∀ s tid env, s.target_tid ≠ 0 → DumpThreadStack s tid env = none) ∧
    (∀ reqs, (runDumps ⟨[], 0, false⟩ reqs).isSome = true) := by
  constructor
  · intro s tid env h
    unfold DumpThreadStack
    simp [h]
  · intro reqs
    exact runDumps_isSome reqs ⟨[], 0, false⟩ rfl

/-- C8 witness: a concrete violating state aborts; a concrete run returns. -/
theorem c8_active_session_check_witness :
    DumpThreadStack ⟨[], 5, false⟩ 3 ⟨true, true, [], fun _ => none⟩ = none ∧
    (runDumps ⟨[], 0, false⟩ [(3, ⟨true, false, [], fun _ => none⟩)]).isSome = true :=
  ⟨c8_active_session_check.1 ⟨[], 5, false⟩ 3 ⟨true, true, [], fun _ => none⟩ (by decide),
   c8_active_session_check.2 [(3, ⟨true, false, [], fun _ => none⟩)]⟩

/-! ### Structure of the hex-encoding writes -/

theorem stringifyAux_stop (frames : List Nat) (i dst : Nat) (limit : Int)
    (h : ¬ (dst : Int) < limit) : stringifyAux frames i dst limit = ([], dst) := by
  cases frames <;> simp [stringifyAux, h]

theorem stringifyAux_cons_zero (pc : Nat) (rest : List Nat) (dst : Nat) (limit : Int)
    (h : (dst : Int) < limit) :
    stringifyAux (pc :: rest) 0 dst limit =
      (tokenWrites dst pc ++ (stringifyAux rest 1 (dst + kHexEntryLength) limit).1,
       (stringifyAux rest 1 (dst + kHexEntryLength) limit).2) := by
  cases haux : stringifyAux rest 1 (dst + kHexEntryLength) limit with
  | mk ws dfin => simp [stringifyAux, h, haux]

theorem stringifyAux_cons_pos (pc : Nat) (rest : List Nat) (i dst : Nat) (limit : Int)
    (hi : i ≠ 0) (h : (dst : Int) < limit) :
    stringifyAux (pc :: rest) i dst limit =
      ((dst, ' ') ::
        (tokenWrites (dst + 1) pc ++
          (stringifyAux rest (i + 1) (dst + 1 + kHexEntryLength) limit).1),
       (stringifyAux rest (i + 1) (dst + 1 + kHexEntryLength) limit).2) := by
  cases haux : stringifyAux rest (i + 1) (dst + 1 + kHexEntryLength) limit with
  | mk ws dfin => simp [stringifyAux, h, hi, haux]

theorem stringifyToHexWrites_eq (frames : List Nat) (size : Nat) :
    stringifyToHexWrites frames size =
      (stringifyAux frames 0 0 ((size : Int) - (kHexEntryLength : Int) - 2)).1 ++
        [((stringifyAux frames 0 0 ((size : Int) - (kHexEntryLength : Int) - 2)).2,
          Char.ofNat 0)] := by
  cases haux : stringifyAux frames 0 0 ((size : Int) - (kHexEntryLength : Int) - 2) with
  | mk ws dfin => simp [stringifyToHexWrites, haux]

theorem tokenWrites_map_fst (dst v : Nat) :
    (tokenWrites dst v).map Prod.fst = List.range' dst kHexEntryLength := by
  simp only [tokenWrites, List.map_map]
  rw [List.range'_eq_map_range]
  rfl

theorem tokenWrites_length (dst v : Nat) :
    (tokenWrites dst v).length = kHexEntryLength := by
  simp [tokenWrites]

theorem hexDigit_ne_nul (n : Nat) (h : n < 16) : hexDigit n ≠ Char.ofNat 0 := by
  have key : ∀ m : Fin 16, hexDigit m.val ≠ Char.ofNat 0 := by decide
  exact key ⟨n, h⟩

theorem tokenWrites_snd_ne_nul (dst v : Nat) :
    ∀ w ∈ tokenWrites dst v, w.2 ≠ Char.ofNat 0 := by
  intro w hw
  simp only [tokenWrites, List.mem_map, List.mem_range] at hw
  obtain ⟨j, _, rfl⟩ := hw
  exact hexDigit_ne_nul _ (Nat.mod_lt _ (by norm_num))

theorem stringifyAux_spec (frames : List Nat) :
    ∀ i dst limit,
      (stringifyAux frames i dst limit).1.map Prod.fst =
        List.range' dst (stringifyAux frames i dst limit).1.length ∧
      (stringifyAux frames i dst limit).2 = dst + (stringifyAux frames i dst limit).1.length ∧
      (∀ w ∈ (stringifyAux frames i dst limit).1, w.2 ≠ Char.ofNat 0) := by
  induction frames with
  | nil =>
    intro i dst limit
    refine ⟨?_, ?_, ?_⟩ <;> simp [stringifyAux]
  | cons pc rest ih =>
    intro i dst limit
    by_cases h : (dst : Int) < limit
    · by_cases hi : i = 0
      · subst hi
        rw [stringifyAux_cons_zero pc rest dst limit h]
        obtain ⟨ih1, ih2, ih3⟩ := ih 1 (dst + kHexEntryLength) limit
        dsimp only
        refine ⟨?_, ?_, ?_⟩
        · rw [List.map_append, tokenWrites_map_fst, ih1, List.length_append, tokenWrites_length,
            List.range'_append_1, Nat.add_comm]
        · rw [ih2, List.length_append, tokenWrites_length]
          omega
        · intro w hw
          rcases List.mem_append.mp hw with h1 | h1
          · exact tokenWrites_snd_ne_nul _ _ w h1
          · exact ih3 w h1
      · rw [stringifyAux_cons_pos pc rest i dst limit hi h]
        obtain ⟨ih1, ih2, ih3⟩ := ih (i + 1) (dst + 1 + kHexEntryLength) limit
        dsimp only
        refine ⟨?_, ?_, ?_⟩
        · rw [List.map_cons, List.map_append, tokenWrites_map_fst, ih1,
            List.length_cons, List.length_append, tokenWrites_length, List.range'_append_1,
            List.range'_succ]
          simp [Nat.add_comm]
        · rw [ih2, List.length_cons, List.length_append, tokenWrites_length]
          omega
        · intro w hw
          rcases List.mem_cons.mp hw with h1 | h1
          · rw [h1]
            show ' ' ≠ Char.ofNat 0
            decide
          · rcases List.mem_append.mp h1 with h2 | h2
            · exact tokenWrites_snd_ne_nul _ _ w h2
            · exact ih3 w h2
    · rw [stringifyAux_stop _ _ _ _ h]
      refine ⟨?_, ?_, ?_⟩ <;> simp

theorem stringifyAux_prefix (frames : List Nat) :
    ∀ i dst limit, ∃ k ≤ frames.length,
      (stringifyAux frames i dst limit).1 = hexTokensWrites (frames.take k) i dst := by
  induction frames with
  | nil =>
    intro i dst limit
    exact ⟨0, Nat.le_refl 0, by simp [stringifyAux, hexTokensWrites]⟩
  | cons pc rest ih =>
    intro i dst limit
    by_cases h : (dst : Int) < limit
    · by_cases hi : i = 0
      · subst hi
        obtain ⟨k, hk, hkeq⟩ := ih 1 (dst + kHexEntryLength) limit
        refine ⟨k + 1, by simpa using hk, ?_⟩
        rw [stringifyAux_cons_zero pc rest dst limit h]
        dsimp only
        rw [hkeq]
        simp [hexTokensWrites]
      · obtain ⟨k, hk, hkeq⟩ := ih (i + 1) (dst + 1 + kHexEntryLength) limit
        refine ⟨k + 1, by simpa using hk, ?_⟩
        rw [stringifyAux_cons_pos pc rest i dst limit hi h]
        dsimp only
        rw [hkeq]
        simp [hexTokensWrites, hi]
    · exact ⟨0, Nat.zero_le _, by simp [stringifyAux_stop _ _ _ _ h, hexTokensWrites]⟩

theorem stringifyAux_dfin_le (frames : List Nat) (size : Nat) :
    ∀ i dst, (stringifyAux frames i dst ((size : Int) - (kHexEntryLength : Int) - 2)).2 = dst ∨
      (stringifyAux frames i dst ((size : Int) - (kHexEntryLength : Int) - 2)).2 + 2 ≤ size := by
  induction frames with
  | nil =>
    intro i dst
    left
    simp [stringifyAux]
  | cons pc rest ih =>
    intro i dst
    by_cases h : (dst : Int) < (size : Int) - (kHexEntryLength : Int) - 2
    · right
      have hb : dst + kHexEntryLength + 3 ≤ size := by
        simp only [kHexEntryLength] at h ⊢
        omega
      by_cases hi : i = 0
      · subst hi
        rw [stringifyAux_cons_zero pc rest dst _ h]
        dsimp only
        rcases ih 1 (dst + kHexEntryLength) with h1 | h1
        · rw [h1]; omega
        · exact h1
      · rw [stringifyAux_cons_pos pc rest i dst _ hi h]
        dsimp only
        rcases ih (i + 1) (dst + 1 + kHexEntryLength) with h1 | h1
        · rw [h1]; omega
        · exact h1
    · left
      rw [stringifyAux_stop _ _ _ _ h]

/-! ### Applying consecutive writes to a buffer -/

theorem applyWrites_consecutive (ws : List (Nat × Char)) :
    ∀ (init : List Char) (dst : Nat),
      ws.map Prod.fst = List.range' dst ws.length →
      dst + ws.length ≤ init.length →
      applyWrites init ws =
        init.take dst ++ ws.map Prod.snd ++ init.drop (dst + ws.length) := by
  induction ws with
  | nil =>
    intro init dst _ _
    simp [applyWrites]
  | cons w ws ih =>
    intro init dst hcons hlen
    obtain ⟨p, c⟩ := w
    rw [List.length_cons, List.range'_succ, List.map_cons, List.cons.injEq] at hcons
    obtain ⟨hp, hws⟩ := hcons
    have hp2 : p = dst := hp
    subst hp2
    have hdst : p < init.length := by
      rw [List.length_cons] at hlen
      omega
    have hstep : applyWrites init ((p, c) :: ws) = applyWrites (init.set p c) ws := rfl
    rw [hstep]
    have hlen2 : p + 1 + ws.length ≤ (init.set p c).length := by
      rw [List.length_set]
      rw [List.length_cons] at hlen
      omega
    rw [ih (init.set p c) (p + 1) hws hlen2]
    rw [List.set_take, List.take_succ, List.getElem?_eq_getElem hdst, Option.toList_some]
    rw [List.set_append_right _ _ (by simp [List.length_take])]
    have hidx : p - (init.take p).length = 0 := by
      simp only [List.length_take]
      omega
    rw [hidx, List.set_cons_zero]
    rw [List.drop_set]
    rw [if_pos (by omega)]
    rw [List.map_cons, List.length_cons]
    have harr : p + 1 + ws.length = p + (ws.length + 1) := by omega
    rw [harr]
    simp [List.append_assoc]

/-- The read-back of `StringifyToHex`'s output does not depend on the initial
contents of the destination buffer: all bytes before the terminator are
written by the encoder itself. -/
theorem stringifyInto_indep (frames : List Nat) (size : Nat)
    (init1 init2 : List Char) (h1 : init1.length = size) (h2 : init2.length = size) :
    readCString (applyWrites init1 (stringifyToHexWrites frames size)) =
      readCString (applyWrites init2 (stringifyToHexWrites frames size)) := by
  rcases Nat.eq_zero_or_pos size with hz | hp
  · subst hz
    rw [List.length_eq_zero] at h1 h2
    rw [h1, h2]
  · have key : ∀ init : List Char, init.length = size →
        readCString (applyWrites init (stringifyToHexWrites frames size)) =
          String.mk (((stringifyAux frames 0 0
            ((size : Int) - (kHexEntryLength : Int) - 2)).1).map Prod.snd) := by
      intro init hinit
      obtain ⟨hmap, hdfin, hnul⟩ :=
        stringifyAux_spec frames 0 0 ((size : Int) - (kHexEntryLength : Int) - 2)
      rw [Nat.zero_add] at hdfin
      have hbound := stringifyAux_dfin_le frames size 0 0
      have hlen : (stringifyToHexWrites frames size).length ≤ size := by
        rw [stringifyToHexWrites_eq, List.length_append, List.length_singleton]
        omega
      have hcons : (stringifyToHexWrites frames size).map Prod.fst =
          List.range' 0 (stringifyToHexWrites frames size).length := by
        rw [stringifyToHexWrites_eq, List.map_append, List.length_append, hmap]
        rw [List.map_singleton, List.length_singleton, hdfin]
        simp [List.range'_1_concat]
      rw [applyWrites_consecutive _ init 0 hcons (by omega)]
      rw [List.take_zero, List.nil_append]
      rw [stringifyToHexWrites_eq, List.map_append, List.map_singleton]
      rw [readCString, List.append_assoc, List.singleton_append]
      rw [List.takeWhile_append_of_pos (by
        intro c hc
        rw [List.mem_map] at hc
        obtain ⟨w, hw, rfl⟩ := hc
        exact decide_eq_true (hnul w hw))]
      rw [List.takeWhile_cons_of_neg (by simp)]
      rw [List.append_nil]
    rw [key init1 h1, key init2 h2]

theorem writes_lt_size (frames : List Nat) (size : Nat) (hs : 1 ≤ size) :
    ∀ w ∈ stringifyToHexWrites frames size, w.1 < size := by
  intro w hw
  obtain ⟨hmap, hdfin, _⟩ :=
    stringifyAux_spec frames 0 0 ((size : Int) - (kHexEntryLength : Int) - 2)
  rw [Nat.zero_add] at hdfin
  have hbound := stringifyAux_dfin_le frames size 0 0
  rw [stringifyToHexWrites_eq] at hw
  rcases List.mem_append.mp hw with hb | hl
  · have hmem : w.1 ∈ (stringifyAux frames 0 0
        ((size : Int) - (kHexEntryLength : Int) - 2)).1.map Prod.fst :=
      List.mem_map_of_mem Prod.fst hb
    rw [hmap, List.mem_range'_1] at hmem
    omega
  · rw [List.mem_singleton] at hl
    rw [hl]
    show (stringifyAux frames 0 0 ((size : Int) - (kHexEntryLength : Int) - 2)).2 < size
    omega

/-! ### Claims about the hex encoding (C2, C9, C10) -/

/-- C2, counterexample: with capacity 0 the encoder still writes its
unconditional terminator at offset 0, which is outside a zero-byte buffer, so
"never writes beyond `size` bytes" fails at `size = 0`. -/
theorem c2_counterexample :
    stringifyToHexWrites [] 0 = [(0, Char.ofNat 0)] ∧
    ¬ (∀ w ∈ stringifyToHexWrites [] 0, w.1 < 0) := by
  decide

/-- C2, amended: for every capacity `size ≥ 1` (the terminator write makes
capacity 0 overflow, see the counterexample) `StringifyToHex` stays within the
buffer, its output is a nul-terminated string (every write before the final
terminator lands strictly below the terminator's offset and is a non-nul
character), zero frames produce the empty terminated string, a capacity too
small to hold even one hex token produces just the terminator, and the frame
loop encodes an exact prefix of the frames — never a partial token. -/
theorem c2_stringify_bounded (frames : List Nat) (size : Nat) (hs : 1 ≤ size) :
    (∀ w ∈ stringifyToHexWrites frames size, w.1 < size) ∧
    (∃ body dfin, stringifyToHexWrites frames size = body ++ [(dfin, Char.ofNat 0)] ∧
      dfin < size ∧ (∀ w ∈ body, w.1 < dfin ∧ w.2 ≠ Char.ofNat 0) ∧
      ∃ k ≤ frames.length, body = hexTokensWrites (frames.take k) 0 0) ∧
    (frames = [] → stringifyToHexWrites frames size = [(0, Char.ofNat 0)]) ∧
    (size ≤ kHexEntryLength → stringifyToHexWrites frames size = [(0, Char.ofNat 0)]) := by
  obtain ⟨hmap, hdfin, hnul⟩ :=
    stringifyAux_spec frames 0 0 ((size : Int) - (kHexEntryLength : Int) - 2)
  rw [Nat.zero_add] at hdfin
  have hbound := stringifyAux_dfin_le frames size 0 0
  refine ⟨writes_lt_size frames size hs, ?_, ?_, ?_⟩
  · refine ⟨(stringifyAux frames 0 0 ((size : Int) - (kHexEntryLength : Int) - 2)).1,
      (stringifyAux frames 0 0 ((size : Int) - (kHexEntryLength : Int) - 2)).2,
      stringifyToHexWrites_eq frames size, by omega, ?_,
      stringifyAux_prefix frames 0 0 _⟩
    intro w hw
    refine ⟨?_, hnul w hw⟩
    have hmem : w.1 ∈ (stringifyAux frames 0 0
        ((size : Int) - (kHexEntryLength : Int) - 2)).1.map Prod.fst :=
      List.mem_map_of_mem Prod.fst hw
    rw [hmap, List.mem_range'_1] at hmem
    omega
  · intro hf
    subst hf
    rw [stringifyToHexWrites_eq]
    simp [stringifyAux]
  · intro hsm
    have hstop : ¬ (((0 : Nat) : Int)) < (size : Int) - (kHexEntryLength : Int) - 2 := by
      simp only [kHexEntryLength] at hsm ⊢
      push_cast
      omega
    rw [stringifyToHexWrites_eq, stringifyAux_stop _ _ _ _ hstop]
    simp

/-- C2 witness at one frame and capacity 40. -/
theorem c2_stringify_bounded_witness :
    (∀ w ∈ stringifyToHexWrites [3] 40, w.1 < 40) ∧
    (∃ body dfin, stringifyToHexWrites [3] 40 = body ++ [(dfin, Char.ofNat 0)] ∧
      dfin < 40 ∧ (∀ w ∈ body, w.1 < dfin ∧ w.2 ≠ Char.ofNat 0) ∧
      ∃ k ≤ ([3] : List Nat).length, body = hexTokensWrites (([3] : List Nat).take k) 0 0) ∧
    (([3] : List Nat) = [] → stringifyToHexWrites [3] 40 = [(0, Char.ofNat 0)]) ∧
    (40 ≤ kHexEntryLength → stringifyToHexWrites [3] 40 = [(0, Char.ofNat 0)]) :=
  c2_stringify_bounded [3] 40 (by decide)

/-- C9: the trailing nul terminator is written unconditionally — for every
capacity ≥ 1 and every frame list all writes stay inside the buffer, but at
capacity 0 the encoder still emits exactly one terminator write at offset 0,
one byte beyond the permitted (empty) region. -/
theorem c9_unconditional_terminator :
    (∀ frames size, 1 ≤ size → ∀ w ∈ stringifyToHexWrites frames size, w.1 < size) ∧
    (∀ frames, stringifyToHexWrites frames 0 = [(0, Char.ofNat 0)]) := by
  refine ⟨fun frames size hs => writes_lt_size frames size hs, fun frames => ?_⟩
  have hstop : ¬ (((0 : Nat) : Int)) < ((0 : Nat) : Int) - (kHexEntryLength : Int) - 2 := by
    norm_num [kHexEntryLength]
  rw [stringifyToHexWrites_eq, stringifyAux_stop _ _ _ _ hstop]
  simp

/-- C9 witness: in-bounds at capacity 20, lone terminator at capacity 0. -/
theorem c9_unconditional_terminator_witness :
    (∀ w ∈ stringifyToHexWrites [7] 20, w.1 < 20) ∧
    stringifyToHexWrites [7] 0 = [(0, Char.ofNat 0)] :=
  ⟨c9_unconditional_terminator.1 [7] 20 (by decide),
   c9_unconditional_terminator.2 [7]⟩

/-- C10: hex encoding is deterministic — the text read back from
`StringifyToHex` into equal-capacity buffers, and from `ToHexString`'s fixed
stack buffer, does not depend on the buffers' initial (uninitialised)
contents, so re-encoding the same captured entity yields identical text. -/
theorem c10_hex_deterministic :
    (∀ (frames : List Nat) (init1 init2 : List Char), init1.length = init2.length →
      stringifyToHexInto init1 frames = stringifyToHexInto init2 frames) ∧
    (∀ (frames : List Nat) (init1 init2 : List Char),
      init1.length = toHexBufSize → init2.length = toHexBufSize →
      ToHexString init1 frames = ToHexString init2 frames) := by
  constructor
  · intro frames i1 i2 h
    unfold stringifyToHexInto
    rw [h]
    exact stringifyInto_indep frames i2.length i1 i2 h rfl
  · intro frames i1 i2 h1 h2
    unfold ToHexString
    exact stringifyInto_indep frames toHexBufSize i1 i2 h1 h2

/-- C10 witness: two differently pre-filled buffers give the same text. -/
theorem c10_hex_deterministic_witness :
    stringifyToHexInto (List.replicate 6 'a') [1] =
      stringifyToHexInto (List.replicate 6 'b') [1] ∧
    ToHexString (List.replicate toHexBufSize 'x') [1] =
      ToHexString (List.replicate toHexBufSize 'y') [1] :=
  ⟨c10_hex_deterministic.1 [1] (List.replicate 6 'a') (List.replicate 6 'b') (by simp),
   c10_hex_deterministic.2 [1] (List.replicate toHexBufSize 'x')
     (List.replicate toHexBufSize 'y') (by simp) (by simp)⟩

/-! ### Claim about symbolization (C7) -/

/-- C7: `Symbolize` produces exactly one line per captured frame — the
concatenation, in order, of per-frame lines each holding the fixed-width
pointer rendering of the original captured address — where the resolver is
consulted at the captured address decremented by one byte, and a failed
resolution substitutes the literal "(unknown)" for that frame without
affecting the others. -/
theorem c7_symbolize_lines (resolver : Nat → Option String) (frames : List Nat)
    (hpc : ∀ pc ∈ frames, 1 ≤ pc ∧ pc < 2 ^ 64) :
    Symbolize resolver frames =
      String.join (frames.map (fun pc =>
        "    @ " ++ formatPointer pc ++ "  " ++
          (resolver (pc - 1)).getD "(unknown)" ++ "\n")) := by
  have hframe : ∀ pc ∈ frames,
      (fun pc => "    @ " ++ formatPointer pc ++ "  " ++
        (resolver (pc - 1)).getD "(unknown)" ++ "\n") pc = symbolizeFrame resolver pc := by
    intro pc hm
    obtain ⟨h1, h2⟩ := hpc pc hm
    have hlit : (2 : Nat) ^ 64 = 18446744073709551616 := by norm_num
    have hdec : decPtr pc = pc - 1 := by
      unfold decPtr
      rw [hlit]
      rw [hlit] at h2
      omega
    unfold symbolizeFrame
    rw [hdec]
    cases hres : resolver (pc - 1) <;> simp [hres]
  unfold Symbolize
  rw [List.map_congr_left hframe]
  show List.foldl (fun ret pc => ret ++ symbolizeFrame resolver pc) "" frames =
    String.join (List.map (symbolizeFrame resolver) frames)
  unfold String.join
  rw [List.foldl_map]

/-- C7 witness: two frames, the first resolving (at address 4096 - 1), the
second failing and rendered "(unknown)". -/
theorem c7_symbolize_lines_witness :
    Symbolize (fun n => if n = 4095 then some "foo" else none) [4096, 2] =
      String.join ([4096, 2].map (fun pc =>
        "    @ " ++ formatPointer pc ++ "  " ++
          ((fun n => if n = 4095 then some "foo" else none) (pc - 1)).getD
            "(unknown)" ++ "\n")) :=
  c7_symbolize_lines (fun n => if n = 4095 then some "foo" else none) [4096, 2] (by decide)

end DebugUtil
